import Mathlib

/-!
Shallow embedding of the `Data_Cleaning` repository (`src/cleaner.py`), a
polars-based tabular cleaning pipeline, together with proofs about its
cleaning steps.

Modelling conventions:
* A polars DataFrame is a `List Row`; a `Row` has the eight columns the
  pipeline works with.  The text columns (`first_name`, `last_name`, `email`,
  `country`, `gender`) are `Option String` (polars `str` dtype with nulls);
  `id`, `birth_year` and `income` carry a `Value` so that the strict casts
  performed by `clean_birth_year` / `clean_income` (which can fail on
  string-typed data) are representable.
* Machine floats (`Float64`) are embedded as `Rat`; the arithmetic used by the
  pipeline (quantile lookup, `q3 - q1`, `1.5 * iqr`, comparisons) is exact at
  the magnitudes relevant here, so `Rat` is a faithful model.
* A Python exception is `none`: a step that can raise returns `Option Table`,
  and `runCleaningPipeline t = none` means the run aborted and `save` (the
  CSV write) was never reached, so no output file is produced.
* `pl.col(c).quantile(q)` is polars' default interpolation `nearest`: the
  element of the sorted non-null column at index `round(q * (n - 1))`, with
  `round` rounding half away from zero (Rust `f64::round`).  For
  `q = 1/4` this index is `(n + 1) / 4` and for `q = 3/4` it is
  `(3 * n - 1) / 4` (integer division).
-/

set_option maxRecDepth 4000

namespace DataCleaning

/-- A cell of a numeric/untyped column: null, integer, float (as `Rat`),
or string (the CSV reader may well have inferred a string dtype, which is
exactly the situation where the strict casts of `clean_birth_year` and
`clean_income` can fail). -/
inductive Value where
  | null : Value
  | vint : Int → Value
  | vfloat : Rat → Value
  | vstr : String → Value
deriving DecidableEq

/-- One row of the table, with the eight columns
`id, first_name, last_name, email, birth_year, country, gender, income`. -/
structure Row where
  id : Value
  first_name : Option String
  last_name : Option String
  email : Option String
  birth_year : Value
  country : Option String
  gender : Option String
  income : Value
deriving DecidableEq

/-- The in-memory DataFrame `self.df`. -/
abbrev Table := List Row

/-! ### String helpers (polars `str.strip_chars`, `to_lowercase`,
`to_uppercase`, and the email regex) -/

/-- Polars `str.strip_chars()` with no argument strips leading and trailing
whitespace. -/
def stripChars (l : List Char) : List Char :=
  ((l.dropWhile Char.isWhitespace).reverse.dropWhile Char.isWhitespace).reverse

/-- The map `.str.strip_chars().str.to_lowercase()` applied to one cell. -/
def normLower (s : String) : String :=
  String.mk ((stripChars s.data).map Char.toLower)

/-- The map `.str.strip_chars().str.to_uppercase()` applied to one cell. -/
def normUpper (s : String) : String :=
  String.mk ((stripChars s.data).map Char.toUpper)

/-- A regex word character `\w` (ASCII fragment). -/
def isWordChar (c : Char) : Bool :=
  c.isAlpha || c.isDigit || c == '_'

/-- A character of the class `[\w.-]` used by the email pattern. -/
def isWordDotDash (c : Char) : Bool :=
  isWordChar c || c == '.' || c == '-'

/-- The domain part of the email pattern, i.e. the language of
`[\w.-]+\.\w+` anchored on both sides: there is a dot such that everything
after it is a nonempty run of word characters and something of the class
`[\w.-]` precedes it.  Since `\w` excludes `.`, this dot is necessarily the
last one, so we check the maximal word-character suffix. -/
def domainMatches (l : List Char) : Bool :=
  let r := l.reverse
  let tld := r.takeWhile isWordChar
  let rest := r.dropWhile isWordChar
  decide (tld ≠ []) &&
    (match rest with
     | '.' :: mid => decide (mid ≠ []) && mid.all isWordDotDash
     | _ => false)

/-- Full match of the email pattern `^[\w.-]+@[\w.-]+\.\w+$` used by
`clean_email`.  Since `@` is not in `[\w.-]`, the local part is exactly the
maximal prefix of `[\w.-]` characters and must be followed by `@` and a
matching domain. -/
def emailMatches (s : String) : Bool :=
  let l := s.data
  let lpart := l.takeWhile isWordDotDash
  let rest := l.dropWhile isWordDotDash
  decide (lpart ≠ []) &&
    (match rest with
     | '@' :: dom => domainMatches dom
     | _ => false)

/-! ### Strict casts (`cast(pl.Int32)`, `cast(pl.Float64)`) -/

/-- Digit-string to `Nat` (helper for the strict numeric parses). -/
def digitsToNat (l : List Char) : Option Nat :=
  if l ≠ [] ∧ l.all Char.isDigit then
    some (l.foldl (fun acc c => 10 * acc + (c.toNat - 48)) 0)
  else none

/-- Nonnegative decimal literal `digits` or `digits.digits`, as a `Rat`. -/
def parseDecimalPos (l : List Char) : Option Rat :=
  let intPart := l.takeWhile Char.isDigit
  let rest := l.dropWhile Char.isDigit
  match digitsToNat intPart with
  | none => none
  | some n =>
    match rest with
    | [] => some (Rat.ofInt (Int.ofNat n))
    | '.' :: frac =>
      match digitsToNat frac with
      | some m => some (Rat.ofInt (Int.ofNat n) +
          Rat.ofInt (Int.ofNat m) / (10 : Rat) ^ frac.length)
      | none => none
    | _ => none

/-- Decimal literal with optional leading minus sign, as a `Rat` (the
string-to-float parse of a strict `cast(pl.Float64)`, restricted to plain
decimal forms). -/
def parseDecimal (l : List Char) : Option Rat :=
  match l with
  | '-' :: rest => (parseDecimalPos rest).map (fun q => -q)
  | _ => parseDecimalPos l

/-- Whether `n` fits in an `Int32`. -/
def inInt32 (n : Int) : Bool :=
  decide (-(2 ^ 31) ≤ n) && decide (n < 2 ^ 31)

/-- Strict `cast(pl.Int32)` of one cell: null stays null; out-of-range or
non-numeric values raise (`none`); floats truncate toward zero. -/
def castInt32 (v : Value) : Option Value :=
  match v with
  | .null => some .null
  | .vint n => if inInt32 n then some (.vint n) else none
  | .vfloat q =>
    let n := Int.tdiv q.num (q.den : Int)
    if inInt32 n then some (.vint n) else none
  | .vstr s =>
    match s.toInt? with
    | some n => if inInt32 n then some (.vint n) else none
    | none => none

/-- Strict `cast(pl.Float64)` of one cell: null stays null; a non-numeric
string raises (`none`). -/
def castFloat (v : Value) : Option Value :=
  match v with
  | .null => some .null
  | .vint n => some (.vfloat (Rat.ofInt n))
  | .vfloat q => some (.vfloat q)
  | .vstr s =>
    match parseDecimal s.data with
    | some q => some (.vfloat q)
    | none => none

/-- Apply a fallible per-row operation to every row; any failure makes the
whole column operation raise, as a strict polars cast does. -/
def mapMOpt (f : Row → Option Row) : List Row → Option (List Row)
  | [] => some []
  | r :: rs =>
    match f r, mapMOpt f rs with
    | some r2, some rs2 => some (r2 :: rs2)
    | _, _ => none

/-! ### The cleaning steps of `DataCleaner` -/

/-- A row with a null in one of the eight critical columns
(`drop_nulls(subset=[...])` and the final-table invariant). -/
def hasCriticalNull (r : Row) : Bool :=
  decide (r.id = Value.null) || r.first_name.isNone || r.last_name.isNone ||
    r.email.isNone || decide (r.birth_year = Value.null) || r.country.isNone ||
    r.gender.isNone || decide (r.income = Value.null)

/-- The step `drop_nulls`: remove every row with a null in a critical column. -/
def dropNulls (t : Table) : Table :=
  t.filter (fun r => !hasCriticalNull r)

/-- The step `remove_duplicates`: `self.df.unique()` removes fully identical rows,
keeping one representative of each (polars does not specify which occurrence
nor the output order; we model it as `List.dedup`). -/
def removeDuplicates (t : Table) : Table :=
  t.dedup

/-- The per-row effect of `clean_names` on one row. -/
def nameNormRow (r : Row) : Row :=
  { r with first_name := r.first_name.map normLower,
           last_name := r.last_name.map normLower }

/-- The step `clean_names`: strip and lowercase `first_name` and `last_name`
(a `with_columns` map, so no row is removed; nulls stay null). -/
def cleanNames (t : Table) : Table :=
  t.map nameNormRow

/-- The email filter predicate of `clean_email` (a null email yields a null
mask entry, which the filter drops). -/
def emailOk (r : Row) : Bool :=
  match r.email with
  | some s => emailMatches s
  | none => false

/-- The step `clean_email`: keep only rows whose email matches the pattern. -/
def cleanEmail (t : Table) : Table :=
  t.filter emailOk

/-- Cast the `birth_year` cell of one row (strict, may raise). -/
def castBirthYearRow (r : Row) : Option Row :=
  (castInt32 r.birth_year).map (fun v => { r with birth_year := v })

/-- The range filter of `clean_birth_year` (a null year gives a null mask
entry, dropped by the filter). -/
def birthYearInRange (minYear maxYear : Int) (r : Row) : Bool :=
  match r.birth_year with
  | .vint n => decide (minYear ≤ n) && decide (n ≤ maxYear)
  | _ => false

/-- The step `clean_birth_year`: strict cast of the column to `Int32` (raising on any
non-castable cell), then keep rows with `min_year <= birth_year <= max_year`.
Defaults in the source: `min_year = 1900`, `max_year = 2025`. -/
def cleanBirthYear (minYear maxYear : Int) (t : Table) : Option Table :=
  (mapMOpt castBirthYearRow t).map
    (fun u => u.filter (birthYearInRange minYear maxYear))

/-- Cast the `income` cell of one row (strict, may raise). -/
def castIncomeRow (r : Row) : Option Row :=
  (castFloat r.income).map (fun v => { r with income := v })

/-- The non-null values of the (already cast) income column, in row order:
the population over which the quantiles are taken (`quantile` ignores
nulls). -/
def incomeVals (t : Table) : List Rat :=
  t.filterMap (fun r =>
    match r.income with
    | .vfloat q => some q
    | _ => none)

/-- Insertion into a sorted list (ascending). -/
def insertSorted (x : Rat) : List Rat → List Rat
  | [] => [x]
  | y :: ys => if x ≤ y then x :: y :: ys else y :: insertSorted x ys

/-- Ascending insertion sort, the sorted view of a column that `quantile`
works on. -/
def sortQ (l : List Rat) : List Rat :=
  l.foldr insertSorted []

/-- Polars `quantile(0.25)` with the default interpolation `nearest`:
the sorted element at index `round(0.25 * (n - 1)) = (n + 1) / 4`. -/
def q1Of (vals : List Rat) : Rat :=
  (sortQ vals).getD ((vals.length + 1) / 4) 0

/-- Polars `quantile(0.75)` with the default interpolation `nearest`:
the sorted element at index `round(0.75 * (n - 1)) = (3 * n - 1) / 4`. -/
def q3Of (vals : List Rat) : Rat :=
  (sortQ vals).getD ((3 * vals.length - 1) / 4) 0

/-- The bound `lower_bound = q1 - 1.5 * iqr`, recomputed from the given column. -/
def lowerFence (vals : List Rat) : Rat :=
  q1Of vals - (3 : Rat) / 2 * (q3Of vals - q1Of vals)

/-- The bound `upper_bound = q3 + 1.5 * iqr`, recomputed from the given column. -/
def upperFence (vals : List Rat) : Rat :=
  q3Of vals + (3 : Rat) / 2 * (q3Of vals - q1Of vals)

/-- The income filter predicate (a null income gives a null mask entry,
dropped by the filter). -/
def incomeInFence (lo hi : Rat) (r : Row) : Bool :=
  match r.income with
  | .vfloat q => decide (lo ≤ q) && decide (q ≤ hi)
  | _ => false

/-- The step `clean_income`: strict cast of the column to `Float64` (raising on any
non-castable cell); then `q1`/`q3` over the current column and the fence
`[q1 - 1.5*iqr, q3 + 1.5*iqr]`.  On an empty (or all-null) column the
quantiles are null and `iqr = q3 - q1` is a `TypeError` on `None`, i.e. the
step raises (`none`).  The bounds are recomputed from the argument table on
every call; nothing is cached. -/
def cleanIncome (t : Table) : Option Table :=
  (mapMOpt castIncomeRow t).bind (fun u =>
    let vals := incomeVals u
    if vals = [] then none
    else
      some (u.filter (incomeInFence (lowerFence vals) (upperFence vals))))

/-- The per-row normalization of `standardize_country_gender`. -/
def standardizeRow (r : Row) : Row :=
  { r with country := r.country.map normUpper,
           gender := r.gender.map normLower }

/-- The list `valid_genders = ["male", "female", "other"]`. -/
def validGenders : List String :=
  ["male", "female", "other"]

/-- The gender filter of `standardize_country_gender` (`is_in` on a null
gender gives a null mask entry, dropped by the filter). -/
def genderOk (r : Row) : Bool :=
  match r.gender with
  | some g => decide (g ∈ validGenders)
  | none => false

/-- The step `standardize_country_gender`: strip+uppercase `country`,
strip+lowercase `gender`, then keep rows whose gender is valid. -/
def standardizeCountryGender (t : Table) : Table :=
  (t.map standardizeRow).filter genderOk

/-- The column names of the expected schema (reported by
`initial_summary`). -/
def columnNames : List String :=
  ["id", "first_name", "last_name", "email", "birth_year", "country",
   "gender", "income"]

/-- The step `initial_summary`: a read-only report (row count, column names, rows
with nulls); it does not change the table. -/
def initialSummary (t : Table) : Nat × List String × Nat :=
  (t.length, columnNames, (t.filter hasCriticalNull).length)

/-- The step `save`: `write_csv` serializes the current table; we expose the written
file as the function's value.  It is reached only when every earlier step
succeeded. -/
def save (t : Table) : Table :=
  t

/-- The method `run_cleaning_pipeline`: the fixed sequence
summary, `drop_nulls`, `remove_duplicates`, `clean_names`, `clean_email`,
`clean_birth_year` (defaults 1900/2025), `clean_income`,
`standardize_country_gender`, `save`.  A raising step (`none`) aborts the
run before `save`. -/
def runCleaningPipeline (t : Table) : Option Table :=
  let _summary := initialSummary t
  let t1 := dropNulls t
  let t2 := removeDuplicates t1
  let t3 := cleanNames t2
  let t4 := cleanEmail t3
  match cleanBirthYear 1900 2025 t4 with
  | none => none
  | some t5 =>
    match cleanIncome t5 with
    | none => none
    | some t6 => some (save (standardizeCountryGender t6))

/-- The table as it stands after `clean_email` (the state handed to
`clean_birth_year` inside the pipeline). -/
def stage4 (t : Table) : Table :=
  cleanEmail (cleanNames (removeDuplicates (dropNulls t)))

/-- The table as it stands after `clean_birth_year` (the state handed to
`clean_income` inside the pipeline), or `none` if the cast raised. -/
def stage5 (t : Table) : Option Table :=
  cleanBirthYear 1900 2025 (stage4 t)

/-! ### The spec's wording of the quantile method (for comparison with the
source's behavior) -/

/-- Modelled from the spec: "quantile method ... (linear interpolation
between order statistics)".  For `h = p * (n - 1)` and `i = floor h`, the
linear quantile is `s[i] + (h - i) * (s[i+1] - s[i])` over the sorted
column `s`. -/
def linQuantile (vals : List Rat) (p : Rat) : Rat :=
  let s := sortQ vals
  let h : Rat := p * ((vals.length : Rat) - 1)
  let i : Nat := h.floor.toNat
  let lo := s.getD i 0
  let hi := s.getD (i + 1) lo
  lo + (h - (i : Rat)) * (hi - lo)

/-- Modelled from the spec: `clean_income` as the spec words it, with Q1 and
Q3 by linear interpolation between order statistics; everything else as in
the source. -/
def cleanIncomeLinear (t : Table) : Option Table :=
  (mapMOpt castIncomeRow t).bind (fun u =>
    let vals := incomeVals u
    if vals = [] then none
    else
      let q1 := linQuantile vals ((1 : Rat) / 4)
      let q3 := linQuantile vals ((3 : Rat) / 4)
      let lo := q1 - (3 : Rat) / 2 * (q3 - q1)
      let hi := q3 + (3 : Rat) / 2 * (q3 - q1)
      some (u.filter (incomeInFence lo hi)))

/-! ### Concrete tables used as witnesses and counterexamples -/

/-- A fully clean row (valid email, year, gender, uppercase country,
lowercase trimmed names) with a chosen id and income. -/
def sampleRow (i : Int) (inc : Value) : Row :=
  { id := .vint i, first_name := some "a", last_name := some "b",
    email := some "a@b.com", birth_year := .vint 1990,
    country := some "US", gender := some "male", income := inc }

/-- Four rows with incomes 0, 8, 10, 100: nearest-interpolation quartiles
give the fence [5, 13] (keeping 8 and 10), while linear interpolation gives
[-33.75, 72.25] (keeping 0, 8 and 10). -/
def tQuant : Table :=
  [sampleRow 1 (.vint 0), sampleRow 2 (.vint 8), sampleRow 3 (.vint 10),
   sampleRow 4 (.vint 100)]

/-- The table `tQuant` after the `Float64` cast of its income column. -/
def tQuantCast : Table :=
  [sampleRow 1 (.vfloat 0), sampleRow 2 (.vfloat 8), sampleRow 3 (.vfloat 10),
   sampleRow 4 (.vfloat 100)]

/-- Six clean rows with incomes 0, 0, 0, 0, 100, 1000: the first run's fence
is [-150, 250] (dropping 1000), and re-running on the output computes the
fence [0, 0] over the five survivors and drops the 100 as well. -/
def tRetrim : Table :=
  [sampleRow 1 (.vint 0), sampleRow 2 (.vint 0), sampleRow 3 (.vint 0),
   sampleRow 4 (.vint 0), sampleRow 5 (.vint 100), sampleRow 6 (.vint 1000)]

/-- A one-row, already-clean table. -/
def tOne : Table :=
  [sampleRow 1 (.vint 50)]

/-- Two rows identical except for the case of `first_name`: distinct at
`Deduplicate` time, identical after `clean_names`. -/
def rowDupA : Row :=
  { id := .vint 1, first_name := some "Ann", last_name := some "Smith",
    email := some "a@b.com", birth_year := .vint 1990,
    country := some "US", gender := some "Female", income := .vint 500 }

/-- A copy of `rowDupA` with the already-lowercased first name. -/
def rowDupB : Row :=
  { rowDupA with first_name := some "ann" }

/-- The two near-duplicate rows as an input table. -/
def tDup : Table :=
  [rowDupA, rowDupB]

/-- A clean row except that its `birth_year` is the non-numeric string
"abc", on which the strict `Int32` cast raises. -/
def tBadYear : Table :=
  [{ sampleRow 1 (.vint 50) with birth_year := Value.vstr "abc" }]

/-- A row whose email fails the pattern, so the table is empty by the time
`clean_income` runs. -/
def tBadEmail : Table :=
  [{ sampleRow 1 (.vint 50) with email := some "bad" }]

/-! ### Helper lemmas -/

/-- Each row of a successful `mapMOpt` output comes from a row of the
input. -/
theorem mapMOpt_mem {f : Row → Option Row} :
    ∀ {l l' : List Row}, mapMOpt f l = some l' →
      ∀ b ∈ l', ∃ a ∈ l, f a = some b := by
  intro l
  induction l with
  | nil =>
    intro l' h b hb
    simp [mapMOpt] at h
    subst h
    simp at hb
  | cons a as ih =>
    intro l' h b hb
    rw [mapMOpt] at h
    cases hfa : f a with
    | none => rw [hfa] at h; simp at h
    | some b0 =>
      cases hrec : mapMOpt f as with
      | none => rw [hfa, hrec] at h; simp at h
      | some bs =>
        rw [hfa, hrec] at h
        simp only [Option.some.injEq] at h
        subst h
        rcases List.mem_cons.mp hb with hb | hb
        · exact ⟨a, List.mem_cons_self a as, hb ▸ hfa⟩
        · rcases ih hrec b hb with ⟨a0, ha0, hfa0⟩
          exact ⟨a0, List.mem_cons_of_mem a ha0, hfa0⟩

/-- A successful `mapMOpt` preserves the number of rows. -/
theorem mapMOpt_length {f : Row → Option Row} :
    ∀ {l l' : List Row}, mapMOpt f l = some l' → l'.length = l.length := by
  intro l
  induction l with
  | nil =>
    intro l' h
    simp [mapMOpt] at h
    subst h
    rfl
  | cons a as ih =>
    intro l' h
    rw [mapMOpt] at h
    cases hfa : f a with
    | none => rw [hfa] at h; simp at h
    | some b0 =>
      cases hrec : mapMOpt f as with
      | none => rw [hfa, hrec] at h; simp at h
      | some bs =>
        rw [hfa, hrec] at h
        simp only [Option.some.injEq] at h
        subst h
        simp [ih hrec]

/-- If one row's operation fails, the whole column operation raises. -/
theorem mapMOpt_none {f : Row → Option Row} {a : Row} :
    ∀ {l : List Row}, a ∈ l → f a = none → mapMOpt f l = none := by
  intro l
  induction l with
  | nil => intro h; simp at h
  | cons x xs ih =>
    intro hmem hfa
    rcases List.mem_cons.mp hmem with h | h
    · subst h
      rw [mapMOpt, hfa]
    · rw [mapMOpt, ih h hfa]
      cases f x <;> rfl

/-- The pipeline is the composition of its stages: `stage5` (summary,
null-drop, dedup, names, email, birth-year cast/filter), then
`clean_income`, then gender/country standardization and the final save. -/
theorem pipeline_eq (t : Table) :
    runCleaningPipeline t =
      Option.bind (stage5 t) (fun t5 =>
        Option.map (fun t6 => save (standardizeCountryGender t6))
          (cleanIncome t5)) := by
  have h : runCleaningPipeline t =
      (match stage5 t with
       | none => none
       | some t5 =>
         match cleanIncome t5 with
         | none => none
         | some t6 => some (save (standardizeCountryGender t6))) := rfl
  rw [h]
  cases stage5 t with
  | none => rfl
  | some t5 =>
    show (match cleanIncome t5 with
          | none => none
          | some t6 => some (save (standardizeCountryGender t6))) =
      Option.map (fun t6 => save (standardizeCountryGender t6)) (cleanIncome t5)
    cases cleanIncome t5 <;> rfl

/-- Decomposition of a successful per-row birth-year cast. -/
theorem castBirthYearRow_eq {a b : Row} (h : castBirthYearRow a = some b) :
    ∃ v, castInt32 a.birth_year = some v ∧ b = { a with birth_year := v } := by
  unfold castBirthYearRow at h
  rcases Option.map_eq_some'.mp h with ⟨v, hv, hb⟩
  exact ⟨v, hv, hb.symm⟩

/-- Decomposition of a successful per-row income cast. -/
theorem castIncomeRow_eq {a b : Row} (h : castIncomeRow a = some b) :
    ∃ v, castFloat a.income = some v ∧ b = { a with income := v } := by
  unfold castIncomeRow at h
  rcases Option.map_eq_some'.mp h with ⟨v, hv, hb⟩
  exact ⟨v, hv, hb.symm⟩

/-- Decomposition of a successful `clean_birth_year`. -/
theorem cleanBirthYear_eq {minY maxY : Int} {t u : Table}
    (h : cleanBirthYear minY maxY t = some u) :
    ∃ w, mapMOpt castBirthYearRow t = some w ∧
      u = w.filter (birthYearInRange minY maxY) := by
  unfold cleanBirthYear at h
  rcases Option.map_eq_some'.mp h with ⟨w, hw, hu⟩
  exact ⟨w, hw, hu.symm⟩

/-- Decomposition of a successful `clean_income`: the cast succeeded, the
income population is nonempty, and the output is the fence filter over the
cast table. -/
theorem cleanIncome_eq {t u : Table} (h : cleanIncome t = some u) :
    ∃ w, mapMOpt castIncomeRow t = some w ∧ incomeVals w ≠ [] ∧
      u = w.filter
        (incomeInFence (lowerFence (incomeVals w)) (upperFence (incomeVals w))) := by
  unfold cleanIncome at h
  cases hw : mapMOpt castIncomeRow t with
  | none => rw [hw] at h; simp at h
  | some w =>
    rw [hw] at h
    have h2 : (if incomeVals w = [] then (none : Option Table)
        else some (w.filter (incomeInFence (lowerFence (incomeVals w))
          (upperFence (incomeVals w))))) = some u := h
    by_cases hne : incomeVals w = []
    · rw [if_pos hne] at h2; simp at h2
    · rw [if_neg hne] at h2
      simp only [Option.some.injEq] at h2
      exact ⟨w, rfl, hne, h2.symm⟩

/-- A successful `clean_birth_year` does not increase the row count. -/
theorem cleanBirthYear_length {minY maxY : Int} {t u : Table}
    (h : cleanBirthYear minY maxY t = some u) : u.length ≤ t.length := by
  rcases cleanBirthYear_eq h with ⟨w, hw, hu⟩
  subst hu
  calc (w.filter (birthYearInRange minY maxY)).length ≤ w.length :=
        List.length_filter_le _ _
    _ = t.length := mapMOpt_length hw

/-- A successful `clean_income` does not increase the row count. -/
theorem cleanIncome_length {t u : Table} (h : cleanIncome t = some u) :
    u.length ≤ t.length := by
  rcases cleanIncome_eq h with ⟨w, hw, _, hu⟩
  subst hu
  calc (w.filter _).length ≤ w.length := List.length_filter_le _ _
    _ = t.length := mapMOpt_length hw

/-- The step `standardize_country_gender` does not increase the row count. -/
theorem standardize_length (t : Table) :
    (standardizeCountryGender t).length ≤ t.length := by
  unfold standardizeCountryGender
  calc ((t.map standardizeRow).filter genderOk).length
      ≤ (t.map standardizeRow).length := List.length_filter_le _ _
    _ = t.length := List.length_map _ _

/-- The first four steps do not increase the row count. -/
theorem stage4_length (t : Table) : (stage4 t).length ≤ t.length := by
  unfold stage4 cleanEmail cleanNames
  calc ((cleanNames (removeDuplicates (dropNulls t))).filter emailOk).length
      ≤ (cleanNames (removeDuplicates (dropNulls t))).length :=
        List.length_filter_le _ _
    _ = (removeDuplicates (dropNulls t)).length := by
        unfold cleanNames; exact List.length_map _ _
    _ ≤ (dropNulls t).length := (List.dedup_sublist _).length_le
    _ ≤ t.length := List.length_filter_le _ _

/-! ### The claims -/

/-- C6: `drop_nulls` keeps exactly the rows without a null in any of the
eight required fields `id, first_name, last_name, email, birth_year,
country, gender, income`, leaves every surviving row unchanged (the output
is a sublist of the input), and never increases the row count. -/
theorem C6_drop_nulls (t : Table) :
    (∀ r, r ∈ dropNulls t ↔ r ∈ t ∧ hasCriticalNull r = false) ∧
    (dropNulls t).Sublist t ∧
    (dropNulls t).length ≤ t.length := by
  refine ⟨fun r => ?_, List.filter_sublist t, List.length_filter_le _ t⟩
  simp [dropNulls, List.mem_filter]

/-- C8: `clean_email` keeps exactly the rows whose email is present and
matches `^[\w.-]+@[\w.-]+\.\w+$`, and modifies no field of a surviving row
(the output is a sublist of the input). -/
theorem C8_clean_email (t : Table) :
    (∀ r, r ∈ cleanEmail t ↔
      r ∈ t ∧ ∃ s, r.email = some s ∧ emailMatches s = true) ∧
    (cleanEmail t).Sublist t := by
  refine ⟨fun r => ?_, List.filter_sublist t⟩
  rw [cleanEmail, List.mem_filter]
  constructor
  · rintro ⟨hm, hok⟩
    refine ⟨hm, ?_⟩
    cases he : r.email with
    | none => rw [emailOk, he] at hok; exact absurd hok (by simp)
    | some s => rw [emailOk, he] at hok; exact ⟨s, rfl, hok⟩
  · rintro ⟨hm, s, hs, hok⟩
    exact ⟨hm, by rw [emailOk, hs]; exact hok⟩

/-- C9: `clean_names` removes no row (row counts agree) and, row by row in
order, replaces `first_name` and `last_name` by their stripped, lowercased
forms while leaving the six other fields untouched. -/
theorem C9_clean_names (t : Table) :
    (cleanNames t).length = t.length ∧
    List.Forall₂ (fun r0 r1 =>
      r1.first_name = r0.first_name.map normLower ∧
      r1.last_name = r0.last_name.map normLower ∧
      r1.id = r0.id ∧ r1.email = r0.email ∧ r1.birth_year = r0.birth_year ∧
      r1.country = r0.country ∧ r1.gender = r0.gender ∧
      r1.income = r0.income) t (cleanNames t) := by
  constructor
  · exact List.length_map t nameNormRow
  · induction t with
    | nil => exact List.Forall₂.nil
    | cons r rs ih =>
      exact List.Forall₂.cons ⟨rfl, rfl, rfl, rfl, rfl, rfl, rfl, rfl⟩ ih

/-- C7 (counterexample): on `tDup` — two rows identical except for the case
of `first_name` — the pipeline succeeds and its final output contains two
fully identical rows, refuting the claim that no later step can reintroduce
duplicates after `Deduplicate`. -/
theorem C7_counterexample :
    Option.map (fun l => decide l.Nodup) (runCleaningPipeline tDup) =
      some false := by with_unfolding_all decide

/-- C7 (amended): immediately after `Deduplicate` no two rows of the table
are equal, membership is preserved, and the row count does not increase;
however the later per-row maps (`clean_names`,
`standardize_country_gender`) can send two distinct surviving rows to the
same row, so the final pipeline output may contain fully identical rows
(see the counterexample). -/
theorem C7_dedup_nodup (t : Table) :
    (removeDuplicates t).Nodup ∧
    (∀ r, r ∈ removeDuplicates t ↔ r ∈ t) ∧
    (removeDuplicates t).length ≤ t.length :=
  ⟨List.nodup_dedup t, fun _ => List.mem_dedup, (List.dedup_sublist t).length_le⟩

/-- C4: `run_cleaning_pipeline` is exactly the composition
summary → `drop_nulls` → `remove_duplicates` → `clean_names` →
`clean_email` → `clean_birth_year` (bounds 1900/2025) → `clean_income` →
`standardize_country_gender` → `save`, in this order; in particular the
null-drop precedes both type-casting steps, and the income IQR fence is
computed on the table after deduplication and null-dropping but before the
gender filter (`standardize_country_gender` is applied to `clean_income`'s
output, never the other way round). -/
theorem C4_pipeline_order (t : Table) :
    runCleaningPipeline t =
      Option.bind
        (cleanBirthYear 1900 2025
          (cleanEmail (cleanNames (removeDuplicates (dropNulls t)))))
        (fun t5 => Option.map (fun t6 => save (standardizeCountryGender t6))
          (cleanIncome t5)) :=
  pipeline_eq t

/-- C10: when the income column is empty by the time `clean_income` runs
(for instance because every row was removed by an earlier filter), the
quantiles are null, the bound arithmetic fails, and the step — hence the
pipeline — raises instead of passing the empty table through. -/
theorem C10_empty_income (t : Table) (h : stage5 t = some []) :
    cleanIncome ([] : Table) = none ∧ runCleaningPipeline t = none := by
  refine ⟨rfl, ?_⟩
  rw [pipeline_eq, h]
  rfl

/-- C10 witness: a single row with an invalid email leaves the table empty
before `clean_income`, and the pipeline raises. -/
theorem C10_empty_income_witness :
    stage5 tBadEmail = some [] ∧
    (cleanIncome ([] : Table) = none ∧ runCleaningPipeline tBadEmail = none) :=
  ⟨by with_unfolding_all decide, C10_empty_income tBadEmail (by with_unfolding_all decide)⟩

/-- C5: if some row's `birth_year` reaching `clean_birth_year` cannot be
cast to `Int32`, or some row's `income` reaching `clean_income` cannot be
cast to `Float64`, the pipeline returns `none` — it aborts mid-run with an
error and `save` is never executed, so no output file (not even a partial
one) is written; a cast failure is never a silent row drop. -/
theorem C5_cast_failure (t : Table)
    (h : (∃ r ∈ stage4 t, castInt32 r.birth_year = none) ∨
         (∃ t5, stage5 t = some t5 ∧ ∃ r ∈ t5, castFloat r.income = none)) :
    runCleaningPipeline t = none := by
  rw [pipeline_eq]
  rcases h with ⟨r, hr, hc⟩ | ⟨t5, h5, r, hr, hc⟩
  · have hm : mapMOpt castBirthYearRow (stage4 t) = none := by
      apply mapMOpt_none hr
      rw [castBirthYearRow, hc]
      rfl
    have h5 : stage5 t = none := by
      rw [stage5, cleanBirthYear, hm]
      rfl
    rw [h5]
    rfl
  · rw [h5]
    have hm : mapMOpt castIncomeRow t5 = none := by
      apply mapMOpt_none hr
      rw [castIncomeRow, hc]
      rfl
    have h6 : cleanIncome t5 = none := by
      rw [cleanIncome, hm]
      rfl
    show Option.map (fun t6 => save (standardizeCountryGender t6))
      (cleanIncome t5) = none
    rw [h6]
    rfl

/-- C5 witness: a row whose `birth_year` is the string "abc" survives to
`clean_birth_year`, where the strict cast fails and the pipeline aborts. -/
theorem C5_cast_failure_witness : runCleaningPipeline tBadYear = none :=
  C5_cast_failure tBadYear (Or.inl (by with_unfolding_all decide))

/-- C1 (counterexample): on four rows with incomes 0, 8, 10, 100 the code's
`clean_income` (polars default `nearest` interpolation: fence [5, 13],
keeping two rows) differs from the spec's linear-interpolation version
(fence [-33.75, 72.25], keeping three rows), so the quartiles are *not*
computed by linear interpolation between order statistics. -/
theorem C1_counterexample : cleanIncome tQuant ≠ cleanIncomeLinear tQuant := by
  with_unfolding_all decide

/-- C1 (amended): the quartiles Q1 and Q3 used by `clean_income` are
computed over the current income column by polars' default `nearest`
interpolation — the sorted element at index `round(q * (n - 1))`, i.e.
`(n + 1) / 4` for Q1 and `(3n - 1) / 4` for Q3 — and the fence
`[Q1 - 1.5*IQR, Q3 + 1.5*IQR]` is recomputed from the current column on
every run (the bounds below are functions of the argument table only;
nothing is cached). -/
theorem C1_nearest_quantiles (t u : Table)
    (h : mapMOpt castIncomeRow t = some u) (hne : incomeVals u ≠ []) :
    cleanIncome t =
      some (u.filter (incomeInFence (lowerFence (incomeVals u))
        (upperFence (incomeVals u)))) ∧
    q1Of (incomeVals u) =
      (sortQ (incomeVals u)).getD (((incomeVals u).length + 1) / 4) 0 ∧
    q3Of (incomeVals u) =
      (sortQ (incomeVals u)).getD ((3 * (incomeVals u).length - 1) / 4) 0 := by
  refine ⟨?_, rfl, rfl⟩
  have h3 : cleanIncome t =
      (if incomeVals u = [] then (none : Option Table)
       else some (u.filter (incomeInFence (lowerFence (incomeVals u))
         (upperFence (incomeVals u))))) := by
    rw [cleanIncome, h]
    rfl
  rw [h3, if_neg hne]

/-- C1 witness: the amended statement instantiated on the four-row table
with incomes 0, 8, 10, 100. -/
theorem C1_nearest_quantiles_witness :
    mapMOpt castIncomeRow tQuant = some tQuantCast ∧
    incomeVals tQuantCast ≠ [] ∧
    (cleanIncome tQuant =
      some (tQuantCast.filter (incomeInFence (lowerFence (incomeVals tQuantCast))
        (upperFence (incomeVals tQuantCast)))) ∧
     q1Of (incomeVals tQuantCast) =
       (sortQ (incomeVals tQuantCast)).getD
         (((incomeVals tQuantCast).length + 1) / 4) 0 ∧
     q3Of (incomeVals tQuantCast) =
       (sortQ (incomeVals tQuantCast)).getD
         ((3 * (incomeVals tQuantCast).length - 1) / 4) 0) :=
  ⟨by with_unfolding_all decide, by with_unfolding_all decide,
    C1_nearest_quantiles tQuant tQuantCast (by with_unfolding_all decide) (by with_unfolding_all decide)⟩

/-- C2 (counterexample): on six clean rows with incomes
0, 0, 0, 0, 100, 1000 the first run keeps five rows, and running the
pipeline again on that output keeps only four: the IQR fence is recomputed
over the new, smaller population ([0, 0] over 0, 0, 0, 0, 100) and removes
another row, so a second run can strictly shrink the row count. -/
theorem C2_counterexample :
    Option.map List.length (runCleaningPipeline tRetrim) = some 5 ∧
    Option.map List.length
      (Option.bind (runCleaningPipeline tRetrim) runCleaningPipeline) =
      some 4 := by
  exact ⟨by with_unfolding_all decide, by with_unfolding_all decide⟩

/-- C2 (amended): a successful pipeline run never increases the row count —
so a second run yields at most as many rows as the first run's output — but
it is not a monotone fixed point: a second run can yield strictly fewer
rows, because the IQR fence is recomputed over the new population and the
name/country/gender maps may have created duplicates (see the
counterexample). -/
theorem C2_pipeline_length (t t' : Table)
    (h : runCleaningPipeline t = some t') : t'.length ≤ t.length := by
  rw [pipeline_eq] at h
  cases h5 : stage5 t with
  | none => rw [h5] at h; simp at h
  | some t5 =>
    rw [h5] at h
    have h' : Option.map (fun t6 => save (standardizeCountryGender t6))
        (cleanIncome t5) = some t' := h
    rcases Option.map_eq_some'.mp h' with ⟨t6, h6, ht'⟩
    calc t'.length = (standardizeCountryGender t6).length := by
          rw [← ht']; rfl
      _ ≤ t6.length := standardize_length t6
      _ ≤ t5.length := cleanIncome_length h6
      _ ≤ (stage4 t).length := cleanBirthYear_length h5
      _ ≤ t.length := stage4_length t

/-- C2 witness: the amended statement instantiated on a one-row clean
table. -/
theorem C2_pipeline_length_witness :
    runCleaningPipeline tOne = some [sampleRow 1 (Value.vfloat 50)] ∧
    ([sampleRow 1 (Value.vfloat 50)] : Table).length ≤ tOne.length :=
  ⟨by with_unfolding_all decide,
    C2_pipeline_length tOne [sampleRow 1 (Value.vfloat 50)] (by with_unfolding_all decide)⟩

/-- C3: after a successful `run_cleaning_pipeline`, every surviving row has
non-null values in all eight required fields, an email matching
`^[\w.-]+@[\w.-]+\.\w+$`, an integer birth year with
`1900 <= birth_year <= 2025`, a gender in male/female/other, and an income
inside the IQR fence computed over the table state at the time
`clean_income` ran (the post-`clean_birth_year` table `t5` with its income
column cast, namely `u`). -/
theorem C3_pipeline_invariant (t t' : Table)
    (h : runCleaningPipeline t = some t') :
    ∀ r ∈ t',
      hasCriticalNull r = false ∧
      (∃ s, r.email = some s ∧ emailMatches s = true) ∧
      (∃ n, r.birth_year = Value.vint n ∧ 1900 ≤ n ∧ n ≤ 2025) ∧
      (∃ g, r.gender = some g ∧ g ∈ validGenders) ∧
      (∃ t5 u q, stage5 t = some t5 ∧ mapMOpt castIncomeRow t5 = some u ∧
        r.income = Value.vfloat q ∧
        lowerFence (incomeVals u) ≤ q ∧ q ≤ upperFence (incomeVals u)) := by
  rw [pipeline_eq] at h
  cases h5 : stage5 t with
  | none => rw [h5] at h; simp at h
  | some t5 =>
    rw [h5] at h
    have h' : Option.map (fun t6 => save (standardizeCountryGender t6))
        (cleanIncome t5) = some t' := h
    rcases Option.map_eq_some'.mp h' with ⟨t6, h6, ht'⟩
    intro r hr
    rw [← ht'] at hr
    have hr2 : r ∈ (t6.map standardizeRow).filter genderOk := hr
    rcases List.mem_filter.mp hr2 with ⟨hrmap, hgo⟩
    rcases List.mem_map.mp hrmap with ⟨r6, hr6, hr6eq⟩
    rcases cleanIncome_eq h6 with ⟨u, hu, hune, ht6⟩
    rw [ht6] at hr6
    rcases List.mem_filter.mp hr6 with ⟨hr6u, hfence⟩
    rcases mapMOpt_mem hu r6 hr6u with ⟨r5, hr5, hc5⟩
    rcases castIncomeRow_eq hc5 with ⟨vI, hvI, hr6def⟩
    rcases cleanBirthYear_eq h5 with ⟨w4, hw4, ht5⟩
    rw [ht5] at hr5
    rcases List.mem_filter.mp hr5 with ⟨hr5w, hrange⟩
    rcases mapMOpt_mem hw4 r5 hr5w with ⟨r4, hr4, hc4⟩
    rcases castBirthYearRow_eq hc4 with ⟨vB, hvB, hr5def⟩
    have hr4' : r4 ∈ (cleanNames (removeDuplicates (dropNulls t))).filter emailOk :=
      hr4
    rcases List.mem_filter.mp hr4' with ⟨hr4n, hemail⟩
    rcases List.mem_map.mp hr4n with ⟨r2, hr2m, hr4def⟩
    have hr2' : r2 ∈ dropNulls t := List.mem_dedup.mp hr2m
    rcases List.mem_filter.mp hr2' with ⟨hr2t, hnn⟩
    have hnn2 : hasCriticalNull r2 = false := by
      simpa using hnn
    subst hr6eq
    subst hr6def
    subst hr5def
    subst hr4def
    simp only [hasCriticalNull, Bool.or_eq_false_iff,
      decide_eq_false_iff_not] at hnn2
    obtain ⟨⟨⟨⟨⟨⟨⟨hid, hfn⟩, hln⟩, hem⟩, hby⟩, hco⟩, hge⟩, hin⟩ := hnn2
    cases he2 : r2.email with
    | none =>
      exfalso
      simp [emailOk, nameNormRow, he2] at hemail
    | some s =>
    simp only [emailOk, nameNormRow, he2] at hemail
    cases hg2 : r2.gender with
    | none =>
      exfalso
      simp [genderOk, standardizeRow, nameNormRow, hg2] at hgo
    | some g0 =>
    simp only [genderOk, standardizeRow, nameNormRow, hg2, Option.map_some',
      decide_eq_true_iff] at hgo
    cases vB with
    | null => exfalso; simp [birthYearInRange] at hrange
    | vfloat _ => exfalso; simp [birthYearInRange] at hrange
    | vstr _ => exfalso; simp [birthYearInRange] at hrange
    | vint n =>
    simp only [birthYearInRange, Bool.and_eq_true, decide_eq_true_iff] at hrange
    obtain ⟨hn1, hn2⟩ := hrange
    cases vI with
    | null => exfalso; simp [incomeInFence] at hfence
    | vint _ => exfalso; simp [incomeInFence] at hfence
    | vstr _ => exfalso; simp [incomeInFence] at hfence
    | vfloat q =>
    simp only [incomeInFence, Bool.and_eq_true, decide_eq_true_iff] at hfence
    obtain ⟨hq1, hq2⟩ := hfence
    refine ⟨?_, ⟨s, ?_, hemail⟩, ⟨n, ?_, hn1, hn2⟩,
      ⟨normLower g0, ?_, hgo⟩, ⟨t5, u, q, rfl, hu, ?_, hq1, hq2⟩⟩
    · simp only [hasCriticalNull, standardizeRow, nameNormRow, he2, hg2,
        Bool.or_eq_false_iff, decide_eq_false_iff_not]
      cases hf2 : r2.first_name with
      | none => rw [hf2] at hfn; simp at hfn
      | some fn2 =>
      cases hl2 : r2.last_name with
      | none => rw [hl2] at hln; simp at hln
      | some ln2 =>
      cases hc2 : r2.country with
      | none => rw [hc2] at hco; simp at hco
      | some co2 =>
      simp [hf2, hl2, hc2, hid]
    · simp [standardizeRow, nameNormRow, he2]
    · simp [standardizeRow, nameNormRow]
    · simp [standardizeRow, nameNormRow, hg2]
    · simp [standardizeRow, nameNormRow]

/-- C3 witness: the invariant instantiated on a one-row clean table. -/
theorem C3_pipeline_invariant_witness :
    runCleaningPipeline tOne = some [sampleRow 1 (Value.vfloat 50)] ∧
    (hasCriticalNull (sampleRow 1 (Value.vfloat 50)) = false ∧
     (∃ s, (sampleRow 1 (Value.vfloat 50)).email = some s ∧
       emailMatches s = true) ∧
     (∃ n, (sampleRow 1 (Value.vfloat 50)).birth_year = Value.vint n ∧
       1900 ≤ n ∧ n ≤ 2025) ∧
     (∃ g, (sampleRow 1 (Value.vfloat 50)).gender = some g ∧
       g ∈ validGenders) ∧
     (∃ t5 u q, stage5 tOne = some t5 ∧ mapMOpt castIncomeRow t5 = some u ∧
       (sampleRow 1 (Value.vfloat 50)).income = Value.vfloat q ∧
       lowerFence (incomeVals u) ≤ q ∧ q ≤ upperFence (incomeVals u))) :=
  ⟨by with_unfolding_all decide,
    C3_pipeline_invariant tOne [sampleRow 1 (Value.vfloat 50)]
      (by with_unfolding_all decide) (sampleRow 1 (Value.vfloat 50))
      (List.mem_singleton.mpr rfl)⟩

end DataCleaning
